import Mathlib

/-!
# meow-sql: the session entity's database cache and the MySQL result handle

A shallow embedding of `src/db/entity/session_entity.cpp` and of the handle
ownership code of `src/db/mysql/mysql_query_result.h`.

Conventions of the embedding.

* An entity object is addressed by a handle (a natural number standing for the
  address an `EntityPtr` holds); two pointers are equal exactly when their
  handles are.  The objects live in two stores, one for `DataBaseEntity`
  objects and one for `EntityInDatabase` objects.
* `QString` is `String`; the null `QString`, which only the defaulted
  `afterName` argument of `appendCreatedDatabase` takes, is `none`.
* The `Connection` collaborator is external: the answers it gives during one
  call of a session operation are an argument of that operation.  The calls
  made to it and the signals emitted are recorded in two logs carried by the
  state, so that "does not query the server" and "emits nothing" are statements
  about the state.
* Only calls in which the `Connection` returns normally are described (no
  exception is thrown across a session operation).
-/

namespace meow
namespace db

/-- Object identity of an entity: the address held by an `EntityPtr`. -/
abbrev Handle := Nat

/-- Modelled from the spec: the enumeration `Entity::Type` (entity.h is not
among the sources).  The spec lists the variants session, database, table,
view, routine and trigger in this order; `toInt` is the integer the source
obtains with `(int)entity->type()`. -/
inductive EntityType where
  | Session
  | Database
  | Table
  | View
  | Routine
  | Trigger
  deriving DecidableEq, Repr

/-- The integer value of an `Entity::Type` enumerator. -/
def EntityType.toInt : EntityType → Int
  | .Session => 1
  | .Database => 2
  | .Table => 3
  | .View => 4
  | .Routine => 5
  | .Trigger => 6

/-- A `DataBaseEntity` object: its name and its owned child sequence. -/
structure DataBaseEntity where
  name : String
  entities : List Handle
  deriving DecidableEq, Repr

/-- An `EntityInDatabase` object (table, view, routine or trigger): its type,
the "is new" flag, the back-reference to its database and its data fields. -/
structure EntityInDatabase where
  type : EntityType
  isNew : Bool
  dataBaseEntity : Handle
  fields : String
  deriving DecidableEq, Repr

/-- An `Entity *` argument: the session itself, a database or an entity that
lives in a database. -/
inductive Entity where
  | session
  | dataBase (p : Handle)
  | inDatabase (p : Handle)
  deriving DecidableEq, Repr

/-- The signals of `SessionEntity`, with the entity each one carries. -/
inductive Signal where
  | entityEdited (entity : Entity)
  | entityInserted (entity : Entity)
  | databaseInserted (database : Handle)
  | beforeEntityRemoved (entity : Entity)
  | databaseRemoved (database : Handle)
  | entityRemoved (entity : Entity)
  deriving DecidableEq, Repr

/-- A call made to the `Connection`, with its arguments. -/
inductive ConnectionCall where
  | databases (refresh : Bool)
  | allDatabases (refresh : Bool)
  | createDatabase (name collation : String)
  | editDatabase (database : Handle) (newName newCollation : String)
  | editEntityInDB (entity newData : Handle)
  | insertEntityToDB (entity : Handle)
  | dropEntityInDB (entity : Handle)
  | dropDatabase (database : Handle)
  deriving DecidableEq, Repr

/-- Modelled from the spec: the `Connection` collaborator (connection.h only
declares it, its implementation is not among the sources).  The record holds
the answers the connection gives during one call of a session operation, one
field per member function the session uses.  Following the spec, a
`Connection` call reports success or failure and does not itself touch the
entity objects of the session. -/
structure Connection where
  databases : Bool → List String
  allDatabases : Bool → List String
  isAllDatabases : Bool
  editDatabase : Handle → String → String → Bool
  editEntityInDB : Handle → Handle → Bool
  insertEntityToDB : Handle → Bool
  dropEntityInDB : Handle → Bool
  dropDatabase : Handle → Bool

/-- The state a `SessionEntity` works on: its two members `_databases` and
`_databasesWereInit`, the entity objects reachable through pointers, the next
unused handle, and the logs of connection calls and emitted signals. -/
structure SessionEntity where
  _databases : List Handle
  _databasesWereInit : Bool
  dataBaseObjects : Handle → DataBaseEntity
  entityObjects : Handle → EntityInDatabase
  nextHandle : Handle
  connectionCalls : List ConnectionCall
  emitted : List Signal

namespace SessionEntity

/-- The constructor: an empty database list, not yet populated. -/
def construct (dataBaseObjects : Handle → DataBaseEntity)
    (entityObjects : Handle → EntityInDatabase) (nextHandle : Handle) : SessionEntity :=
  { _databases := []
    _databasesWereInit := false
    dataBaseObjects := dataBaseObjects
    entityObjects := entityObjects
    nextHandle := nextHandle
    connectionCalls := []
    emitted := [] }

/-- Records a call to the connection. -/
def call (k : ConnectionCall) (s : SessionEntity) : SessionEntity :=
  { s with connectionCalls := s.connectionCalls ++ [k] }

/-- Emits a signal. -/
def emit (e : Signal) (s : SessionEntity) : SessionEntity :=
  { s with emitted := s.emitted ++ [e] }

/-- The name of the database object behind a handle. -/
def nameOf (s : SessionEntity) (p : Handle) : String :=
  (s.dataBaseObjects p).name

/-- The names of the entities of the database list, in list order. -/
def databaseNames (s : SessionEntity) : List String :=
  s._databases.map s.nameOf

/-- The value of `entity->type()`. -/
def typeOf (s : SessionEntity) : Entity → EntityType
  | .session => .Session
  | .dataBase _ => .Database
  | .inDatabase p => (s.entityObjects p).type

end SessionEntity

/-- Modelled from the spec: `EntityFactory::createDataBase` (entity_factory.h
is not among the sources) builds one new `DataBaseEntity` with the given name;
the new object has a handle no existing object has and no children yet. -/
def EntityFactory.createDataBase (dbName : String) (s : SessionEntity) :
    Handle × SessionEntity :=
  (s.nextHandle,
   { s with
     dataBaseObjects := Function.update s.dataBaseObjects s.nextHandle
       { name := dbName, entities := [] }
     nextHandle := s.nextHandle + 1 })

/-- Modelled from the spec: `DataBaseEntity::appendEntity` (database_entity.cpp
is not among the sources) links the entity into the child sequence of the
database, at its end. -/
def DataBaseEntity.appendEntity (database entity : Handle) (s : SessionEntity) :
    SessionEntity :=
  { s with
    dataBaseObjects := Function.update s.dataBaseObjects database
      { s.dataBaseObjects database with
        entities := (s.dataBaseObjects database).entities ++ [entity] } }

/-- Modelled from the spec: `DataBaseEntity::removeEntity` (database_entity.cpp
is not among the sources) unlinks the entity from the child sequence of the
database and tells whether it was there. -/
def DataBaseEntity.removeEntity (database entity : Handle) (s : SessionEntity) :
    Bool × SessionEntity :=
  (decide (entity ∈ (s.dataBaseObjects database).entities),
   { s with
     dataBaseObjects := Function.update s.dataBaseObjects database
       { s.dataBaseObjects database with
         entities := (s.dataBaseObjects database).entities.erase entity } })

/-- Modelled from the spec: `DataBaseEntity::clearChildren` (database_entity.cpp
is not among the sources) empties the child sequence of the database. -/
def DataBaseEntity.clearChildren (database : Handle) (s : SessionEntity) : SessionEntity :=
  { s with
    dataBaseObjects := Function.update s.dataBaseObjects database
      { s.dataBaseObjects database with entities := [] } }

/-- Modelled from the spec: `EntityInDatabase::copyDataFrom` (not among the
sources) copies the data fields of `newData` into the entity, in place. -/
def EntityInDatabase.copyDataFrom (entity newData : Handle) (s : SessionEntity) :
    SessionEntity :=
  { s with
    entityObjects := Function.update s.entityObjects entity
      { s.entityObjects entity with fields := (s.entityObjects newData).fields } }

/-- Modelled from the spec: `EntityInDatabase::setIsNew` (not among the
sources) sets the "is new" flag of the entity and nothing else. -/
def EntityInDatabase.setIsNew (entity : Handle) (isNew : Bool) (s : SessionEntity) :
    SessionEntity :=
  { s with
    entityObjects := Function.update s.entityObjects entity
      { s.entityObjects entity with isNew := isNew } }

namespace SessionEntity

/-- One turn of the loop of `initDatabasesListIfNeed`: create the entity for
`dbName` and push it to the back of `_databases`. -/
def pushCreated (s : SessionEntity) (dbName : String) : SessionEntity :=
  let r := EntityFactory.createDataBase dbName s
  { r.2 with _databases := r.2._databases ++ [r.1] }

/-- `SessionEntity::initDatabasesListIfNeed`. -/
def initDatabasesListIfNeed (c : Connection) (s : SessionEntity) : SessionEntity :=
  if s._databasesWereInit == false then
    let databaseNames := c.databases true
    let s1 := s.call (.databases true)
    let s2 := databaseNames.foldl pushCreated s1
    { s2 with _databasesWereInit := true }
  else s

/-- `SessionEntity::childCount`. -/
def childCount (c : Connection) (s : SessionEntity) : Nat × SessionEntity :=
  let s1 := initDatabasesListIfNeed c s
  (s1._databases.length, s1)

/-- `SessionEntity::child`; `QList::value` gives a null pointer when the row is
out of range. -/
def child (c : Connection) (row : Int) (s : SessionEntity) :
    Option Handle × SessionEntity :=
  let s1 := initDatabasesListIfNeed c s
  (if 0 ≤ row then s1._databases.get? row.toNat else none, s1)

/-- `SessionEntity::databaseByName`: the first entity of the list with the
name, `none` for `nullptr`. -/
def databaseByName (s : SessionEntity) (name : String) : Option Handle :=
  s._databases.find? (fun entity => s.nameOf entity == name)

/-- `SessionEntity::clearAllDatabaseEntities`. -/
def clearAllDatabaseEntities (s : SessionEntity) : SessionEntity :=
  { s with _databases := [], _databasesWereInit := false }

/-- `SessionEntity::refreshAllEntities`. -/
def refreshAllEntities (c : Connection) (s : SessionEntity) : SessionEntity :=
  initDatabasesListIfNeed c (clearAllDatabaseEntities s)

/-- `SessionEntity::editEntityInDB`. -/
def editEntityInDB (c : Connection) (entity newData : Handle) (s : SessionEntity) :
    SessionEntity :=
  let changed := c.editEntityInDB entity newData
  let s1 := s.call (.editEntityInDB entity newData)
  if changed then
    (EntityInDatabase.copyDataFrom entity newData s1).emit (.entityEdited (.inDatabase entity))
  else s1

/-- `SessionEntity::addEntity`. -/
def addEntity (entity : Entity) (s : SessionEntity) : SessionEntity :=
  if EntityType.Table.toInt ≤ (s.typeOf entity).toInt then
    match entity with
    | .inDatabase p => DataBaseEntity.appendEntity (s.entityObjects p).dataBaseEntity p s
    | _ => s
  else s

/-- `SessionEntity::insertEntityToDB`. -/
def insertEntityToDB (c : Connection) (entity : Handle) (s : SessionEntity) :
    Bool × SessionEntity :=
  let s1 := s.call (.insertEntityToDB entity)
  if c.insertEntityToDB entity then
    let s2 := EntityInDatabase.setIsNew entity false s1
    let s3 := addEntity (.inDatabase entity) s2
    (true, s3.emit (.entityInserted (.inDatabase entity)))
  else (false, s1)

/-- `SessionEntity::dropEntityInDB`. -/
def dropEntityInDB (c : Connection) (entity : Handle) (s : SessionEntity) :
    Bool × SessionEntity :=
  (c.dropEntityInDB entity, s.call (.dropEntityInDB entity))

/-- `SessionEntity::dropDatabase`. -/
def dropDatabase (c : Connection) (database : Handle) (s : SessionEntity) :
    Bool × SessionEntity :=
  (c.dropDatabase database, s.call (.dropDatabase database))

/-- The loop of `appendCreatedDatabase` over `_databases`: at the first entity
whose name is `afterName` the new entity is inserted at the next position and
the loop ends; when no entity has the name the list is left as it is. -/
def insertAfterName (nameOf : Handle → String) (afterName : String) (dbEntity : Handle) :
    List Handle → List Handle
  | [] => []
  | d :: rest =>
    if nameOf d == afterName then d :: dbEntity :: rest
    else d :: insertAfterName nameOf afterName dbEntity rest

/-- `SessionEntity::appendCreatedDatabase`; `afterName = none` is the null
`QString`. -/
def appendCreatedDatabase (c : Connection) (name : String) (afterName : Option String)
    (s : SessionEntity) : SessionEntity :=
  let allDatabases := c.allDatabases true
  let s1 := s.call (.allDatabases true)
  if allDatabases.contains name == false then s1
  else
    let s2 := initDatabasesListIfNeed c s1
    let r := EntityFactory.createDataBase name s2
    let dbEntity := r.1
    let s3 := r.2
    let s4 :=
      match afterName with
      | some a =>
        { s3 with _databases := insertAfterName s3.nameOf a dbEntity s3._databases }
      | none => { s3 with _databases := s3._databases ++ [dbEntity] }
    (s4.emit (.databaseInserted dbEntity)).emit (.entityInserted (.dataBase dbEntity))

/-- `SessionEntity::createDatabase`. -/
def createDatabase (c : Connection) (name collation : String) (s : SessionEntity) :
    SessionEntity :=
  let s1 := s.call (.createDatabase name collation)
  if c.isAllDatabases then appendCreatedDatabase c name none s1 else s1

/-- `SessionEntity::editDatabase`.  The result is `none` when the call
dereferences the null pointer `databaseByName` returned. -/
def editDatabase (c : Connection) (database : Handle) (newName newCollation : String)
    (s : SessionEntity) : Option (Bool × SessionEntity) :=
  let allDatabases := c.allDatabases false
  let s1 := s.call (.allDatabases false)
  let moveToExisting := allDatabases.contains newName
  let changed := c.editDatabase database newName newCollation
  let s2 := s1.call (.editDatabase database newName newCollation)
  if changed then
    if moveToExisting then
      match s2.databaseByName newName with
      | some existing =>
        some (changed,
          (DataBaseEntity.clearChildren existing s2).emit (.entityEdited (.dataBase existing)))
      | none => none
    else
      some (changed, appendCreatedDatabase c newName (some (s2.nameOf database)) s2)
  else some (changed, s2)

/-- `SessionEntity::removeEntity`.  `QList::removeOne` removes the first
occurrence and tells whether there was one; the last branch is the one of
`Q_ASSERT(0)`. -/
def removeEntity (entity : Entity) (s : SessionEntity) : Bool × SessionEntity :=
  let s1 := s.emit (.beforeEntityRemoved entity)
  let r : Bool × SessionEntity :=
    if EntityType.Table.toInt ≤ (s1.typeOf entity).toInt then
      match entity with
      | .inDatabase p => DataBaseEntity.removeEntity (s1.entityObjects p).dataBaseEntity p s1
      | _ => (false, s1)
    else if s1.typeOf entity = EntityType.Database then
      match entity with
      | .dataBase database =>
        let success := decide (database ∈ s1._databases)
        let s2 := { s1 with _databases := s1._databases.erase database }
        if success then (success, s2.emit (.databaseRemoved database)) else (success, s2)
      | _ => (false, s1)
    else (false, s1)
  if r.1 then (r.1, r.2.emit (.entityRemoved entity)) else r

end SessionEntity

/-- The part of a `MySQLQueryResult` that owns the native handle: `_res` (the
`MYSQL_RES *`, `none` for `nullptr`) and the log of the handles that were
passed to `mysql_free_result`, in call order. -/
structure MySQLQueryResult where
  _res : Option Nat
  freed : List Nat
  deriving DecidableEq, Repr

namespace MySQLQueryResult

/-- `MySQLQueryResult::freeNative`. -/
def freeNative (r : MySQLQueryResult) : MySQLQueryResult :=
  match r._res with
  | some res => { _res := none, freed := r.freed ++ [res] }
  | none => r

/-- The destructor `MySQLQueryResult::~MySQLQueryResult`. -/
def destruct (r : MySQLQueryResult) : MySQLQueryResult :=
  freeNative r

/-- A sequence of `n` calls of `freeNative`. -/
def freeNativeTimes : Nat → MySQLQueryResult → MySQLQueryResult
  | 0, r => r
  | n + 1, r => freeNativeTimes n (freeNative r)

end MySQLQueryResult

/-! ## States of the program -/

namespace SessionEntity

/-- Every entity of the database list is an existing object: its handle is
below the next unused one.  In the program this is the fact that a newly
created object is distinct from every existing one. -/
def Allocated (s : SessionEntity) : Prop :=
  ∀ p ∈ s._databases, p < s.nextHandle

/-- The invariant of the database list: its entities exist, none is listed
twice, and the list is empty as long as it was not populated. -/
def Invariant (s : SessionEntity) : Prop :=
  s.Allocated ∧ s._databases.Nodup ∧ (s._databasesWereInit = false → s._databases = [])

/-- The states reachable from a newly constructed session through its
operations, for any answers of the connection. -/
inductive Reachable : SessionEntity → Prop where
  | construct (dataBaseObjects : Handle → DataBaseEntity)
      (entityObjects : Handle → EntityInDatabase) (nextHandle : Handle) :
      Reachable (construct dataBaseObjects entityObjects nextHandle)
  | childCount (c : Connection) {s : SessionEntity} :
      Reachable s → Reachable (childCount c s).2
  | child (c : Connection) (row : Int) {s : SessionEntity} :
      Reachable s → Reachable (child c row s).2
  | clearAllDatabaseEntities {s : SessionEntity} :
      Reachable s → Reachable (clearAllDatabaseEntities s)
  | refreshAllEntities (c : Connection) {s : SessionEntity} :
      Reachable s → Reachable (refreshAllEntities c s)
  | editEntityInDB (c : Connection) (entity newData : Handle) {s : SessionEntity} :
      Reachable s → Reachable (editEntityInDB c entity newData s)
  | insertEntityToDB (c : Connection) (entity : Handle) {s : SessionEntity} :
      Reachable s → Reachable (insertEntityToDB c entity s).2
  | dropEntityInDB (c : Connection) (entity : Handle) {s : SessionEntity} :
      Reachable s → Reachable (dropEntityInDB c entity s).2
  | dropDatabase (c : Connection) (database : Handle) {s : SessionEntity} :
      Reachable s → Reachable (dropDatabase c database s).2
  | createDatabase (c : Connection) (name collation : String) {s : SessionEntity} :
      Reachable s → Reachable (createDatabase c name collation s)
  | appendCreatedDatabase (c : Connection) (name : String) (afterName : Option String)
      {s : SessionEntity} :
      Reachable s → Reachable (appendCreatedDatabase c name afterName s)
  | editDatabase (c : Connection) (database : Handle) (newName newCollation : String)
      {s : SessionEntity} {r : Bool × SessionEntity} :
      Reachable s → editDatabase c database newName newCollation s = some r → Reachable r.2
  | removeEntity (entity : Entity) {s : SessionEntity} :
      Reachable s → Reachable (removeEntity entity s).2

end SessionEntity

/-! ## Sample inputs -/

namespace Sample

/-- A server with the databases `alpha` and `beta` on which every statement
succeeds. -/
def server : Connection :=
  { databases := fun _ => ["alpha", "beta"]
    allDatabases := fun _ => ["alpha", "beta"]
    isAllDatabases := true
    editDatabase := fun _ _ _ => true
    editEntityInDB := fun _ _ => true
    insertEntityToDB := fun _ => true
    dropEntityInDB := fun _ => true
    dropDatabase := fun _ => true }

/-- The same server when every editing statement fails. -/
def failingServer : Connection :=
  { server with
    editDatabase := fun _ _ _ => false
    editEntityInDB := fun _ _ => false
    insertEntityToDB := fun _ => false }

/-- The server after the database `gamma` was created on it. -/
def serverWithGamma : Connection :=
  { server with
    databases := fun _ => ["alpha", "beta", "gamma"]
    allDatabases := fun refresh =>
      if refresh then ["alpha", "beta", "gamma"] else ["alpha", "beta"] }

/-- A newly constructed session; every entity outside the list is a new table
of the database with handle 0. -/
def newSession : SessionEntity :=
  SessionEntity.construct (fun _ => { name := "", entities := [] })
    (fun _ => { type := .Table, isNew := true, dataBaseEntity := 0, fields := "" }) 0

/-- The session after its database list was populated from `server`: the list
is `[0, 1]` with the names `alpha` and `beta`. -/
def populated : SessionEntity :=
  SessionEntity.refreshAllEntities server newSession

/-- The sample server seen through a connection whose parameters hold the
database allow-list `alpha`: `databases` respects the list, `allDatabases`
does not. -/
def restrictedServer : Connection :=
  { server with
    databases := fun _ => ["alpha"]
    isAllDatabases := false }

/-- The session of the restricted connection after population: the list is
`[0]` with the name `alpha`. -/
def restricted : SessionEntity :=
  SessionEntity.refreshAllEntities restrictedServer newSession

end Sample

end db
end meow

namespace meow
namespace db

/-! ## The population loop -/

theorem pushCreated_databases (s : SessionEntity) (n : String) :
    (s.pushCreated n)._databases = s._databases ++ [s.nextHandle] := rfl

theorem pushCreated_nextHandle (s : SessionEntity) (n : String) :
    (s.pushCreated n).nextHandle = s.nextHandle + 1 := rfl

theorem pushCreated_object_new (s : SessionEntity) (n : String) :
    (s.pushCreated n).dataBaseObjects s.nextHandle = { name := n, entities := [] } := by
  simp [SessionEntity.pushCreated, EntityFactory.createDataBase]

theorem pushCreated_object_old (s : SessionEntity) (n : String) (p : Handle)
    (hp : p ≠ s.nextHandle) :
    (s.pushCreated n).dataBaseObjects p = s.dataBaseObjects p := by
  simp [SessionEntity.pushCreated, EntityFactory.createDataBase, Function.update, hp]

/-- What the population loop does to a state: it pushes one new handle per
name, leaves every existing object as it is and gives the new objects the
names of the list, in order. -/
theorem foldl_pushCreated (ns : List String) (s : SessionEntity) :
    (ns.foldl SessionEntity.pushCreated s)._databases
        = s._databases ++ List.range' s.nextHandle ns.length
      ∧ (ns.foldl SessionEntity.pushCreated s).nextHandle = s.nextHandle + ns.length
      ∧ (ns.foldl SessionEntity.pushCreated s)._databasesWereInit = s._databasesWereInit
      ∧ (ns.foldl SessionEntity.pushCreated s).connectionCalls = s.connectionCalls
      ∧ (ns.foldl SessionEntity.pushCreated s).emitted = s.emitted
      ∧ (ns.foldl SessionEntity.pushCreated s).entityObjects = s.entityObjects
      ∧ (∀ p, p < s.nextHandle →
          (ns.foldl SessionEntity.pushCreated s).dataBaseObjects p = s.dataBaseObjects p)
      ∧ (List.range' s.nextHandle ns.length).map
          (ns.foldl SessionEntity.pushCreated s).nameOf = ns := by
  induction ns generalizing s with
  | nil => simp
  | cons n ns ih =>
    obtain ⟨h1, h2, h3, h4, h5, h6, h7, h8⟩ := ih (s.pushCreated n)
    simp only [List.foldl_cons, List.length_cons]
    rw [pushCreated_nextHandle] at h1 h2 h7 h8
    refine ⟨?_, ?_, ?_, ?_, ?_, ?_, ?_, ?_⟩
    · rw [h1, pushCreated_databases, List.range'_succ]; simp
    · rw [h2]; exact Nat.add_right_comm _ _ _
    · rw [h3]; rfl
    · rw [h4]; rfl
    · rw [h5]; rfl
    · rw [h6]; rfl
    · intro p hp
      rw [h7 p (Nat.lt_succ_of_lt hp), pushCreated_object_old s n p (Nat.ne_of_lt hp)]
    · rw [List.range'_succ, List.map_cons, h8]
      congr 1
      simp only [SessionEntity.nameOf]
      rw [h7 s.nextHandle (Nat.lt_succ_self _), pushCreated_object_new]

theorem initDatabasesListIfNeed_of_init (c : Connection) (s : SessionEntity)
    (h : s._databasesWereInit = true) :
    SessionEntity.initDatabasesListIfNeed c s = s := by
  simp [SessionEntity.initDatabasesListIfNeed, h]

theorem initDatabasesListIfNeed_of_not_init (c : Connection) (s : SessionEntity)
    (h : s._databasesWereInit = false) :
    SessionEntity.initDatabasesListIfNeed c s
      = { (c.databases true).foldl SessionEntity.pushCreated (s.call (.databases true)) with
          _databasesWereInit := true } := by
  simp [SessionEntity.initDatabasesListIfNeed, h]

/-- The effect of `initDatabasesListIfNeed` on a state, populated or not: the
list is extended by new, pairwise distinct handles, existing objects are left
as they are, and nothing is emitted. -/
theorem initDatabasesListIfNeed_effect (c : Connection) (s : SessionEntity) :
    (SessionEntity.initDatabasesListIfNeed c s)._databasesWereInit = true
      ∧ (SessionEntity.initDatabasesListIfNeed c s).emitted = s.emitted
      ∧ (SessionEntity.initDatabasesListIfNeed c s).entityObjects = s.entityObjects
      ∧ (∀ p, p < s.nextHandle →
          (SessionEntity.initDatabasesListIfNeed c s).dataBaseObjects p = s.dataBaseObjects p)
      ∧ ∃ k : Nat,
          (SessionEntity.initDatabasesListIfNeed c s)._databases
              = s._databases ++ List.range' s.nextHandle k
            ∧ (SessionEntity.initDatabasesListIfNeed c s).nextHandle = s.nextHandle + k
            ∧ (s._databasesWereInit = true → k = 0) := by
  by_cases h : s._databasesWereInit = true
  · rw [initDatabasesListIfNeed_of_init c s h]
    exact ⟨h, rfl, rfl, fun _ _ => rfl, 0, by simp, rfl, fun _ => rfl⟩
  · have h0 : s._databasesWereInit = false := by simpa using h
    rw [initDatabasesListIfNeed_of_not_init c s h0]
    obtain ⟨h1, h2, _, _, h5, h6, h7, _⟩ :=
      foldl_pushCreated (c.databases true) (s.call (.databases true))
    refine ⟨rfl, h5, h6, h7, (c.databases true).length, h1, h2, ?_⟩
    intro h1; exact absurd h1 h

theorem Invariant_of_append_range (l : List Handle) (n k : Nat)
    (ha : ∀ p ∈ l, p < n) (hn : l.Nodup) :
    (∀ p ∈ l ++ List.range' n k, p < n + k) ∧ (l ++ List.range' n k).Nodup := by
  constructor
  · intro p hp
    rcases List.mem_append.1 hp with h | h
    · exact Nat.lt_of_lt_of_le (ha p h) (Nat.le_add_right _ _)
    · rw [List.mem_range'_1] at h; exact h.2
  · rw [List.nodup_append]
    refine ⟨hn, List.nodup_range' _ _, ?_⟩
    intro a h1 h2
    rw [List.mem_range'_1] at h2
    exact absurd (ha a h1) (Nat.not_lt.2 h2.1)

theorem Invariant_initDatabasesListIfNeed (c : Connection) (s : SessionEntity)
    (h : s.Invariant) : (SessionEntity.initDatabasesListIfNeed c s).Invariant := by
  obtain ⟨ha, hn, _⟩ := h
  obtain ⟨hflag, _, _, _, k, hk1, hk2, _⟩ := initDatabasesListIfNeed_effect c s
  obtain ⟨hb1, hb2⟩ := Invariant_of_append_range s._databases s.nextHandle k ha hn
  refine ⟨?_, ?_, ?_⟩
  · intro p hp
    rw [hk1] at hp; rw [hk2]; exact hb1 p hp
  · rw [hk1]; exact hb2
  · intro hf; rw [hflag] at hf; exact absurd hf (by decide)

/-! ## The insertion loop of `appendCreatedDatabase` -/

theorem insertAfterName_found (f : Handle → String) (a : String) (d x : Handle)
    (pre post : List Handle) (hx : f x = a) (hpre : ∀ y ∈ pre, f y ≠ a) :
    SessionEntity.insertAfterName f a d (pre ++ x :: post) = pre ++ x :: d :: post := by
  induction pre with
  | nil => simp [SessionEntity.insertAfterName, hx]
  | cons y pre ih =>
    have hy : f y ≠ a := hpre y (List.mem_cons_self _ _)
    have ih2 := ih (fun z hz => hpre z (List.mem_cons_of_mem _ hz))
    simp [SessionEntity.insertAfterName, hy, ih2]

theorem insertAfterName_not_found (f : Handle → String) (a : String) (d : Handle)
    (l : List Handle) (h : ∀ y ∈ l, f y ≠ a) :
    SessionEntity.insertAfterName f a d l = l := by
  induction l with
  | nil => rfl
  | cons y l ih =>
    have hy : f y ≠ a := h y (List.mem_cons_self _ _)
    have ih2 := ih (fun z hz => h z (List.mem_cons_of_mem _ hz))
    simp [SessionEntity.insertAfterName, hy, ih2]

theorem insertAfterName_congr (f g : Handle → String) (a : String) (d : Handle)
    (l : List Handle) (h : ∀ y ∈ l, f y = g y) :
    SessionEntity.insertAfterName f a d l = SessionEntity.insertAfterName g a d l := by
  induction l with
  | nil => rfl
  | cons y l ih =>
    have hy : f y = g y := h y (List.mem_cons_self _ _)
    have ih2 := ih (fun z hz => h z (List.mem_cons_of_mem _ hz))
    simp [SessionEntity.insertAfterName, hy, ih2]

/-- A list with an entity named `a` splits at the first such entity. -/
theorem exists_first_named (f : Handle → String) (a : String) (l : List Handle)
    (h : ∃ y ∈ l, f y = a) :
    ∃ pre x post, l = pre ++ x :: post ∧ f x = a ∧ ∀ y ∈ pre, f y ≠ a := by
  induction l with
  | nil =>
    obtain ⟨y, hy, _⟩ := h
    exact absurd hy (List.not_mem_nil y)
  | cons z l ih =>
    by_cases hz : f z = a
    · exact ⟨[], z, l, rfl, hz, fun y hy => absurd hy (List.not_mem_nil y)⟩
    · obtain ⟨y, hy, hya⟩ := h
      have hyl : y ∈ l := by
        rcases List.mem_cons.1 hy with h1 | h1
        · rw [h1] at hya; exact absurd hya hz
        · exact h1
      obtain ⟨pre, x, post, h1, h2, h3⟩ := ih ⟨y, hyl, hya⟩
      refine ⟨z :: pre, x, post, by simp [h1], h2, ?_⟩
      intro w hw
      rcases List.mem_cons.1 hw with h4 | h4
      · rw [h4]; exact hz
      · exact h3 w h4

/-- The loop either leaves the list as it is or puts the new entity directly
after one entity of the list. -/
theorem insertAfterName_cases (f : Handle → String) (a : String) (d : Handle)
    (l : List Handle) :
    SessionEntity.insertAfterName f a d l = l
      ∨ ∃ pre x post, l = pre ++ x :: post
          ∧ SessionEntity.insertAfterName f a d l = pre ++ x :: d :: post := by
  induction l with
  | nil => left; rfl
  | cons y l ih =>
    by_cases hy : f y = a
    · right
      exact ⟨[], y, l, rfl, by simp [SessionEntity.insertAfterName, hy]⟩
    · rcases ih with h | ⟨pre, x, post, h1, h2⟩
      · left; simp [SessionEntity.insertAfterName, hy, h]
      · right
        exact ⟨y :: pre, x, post, by simp [h1], by simp [SessionEntity.insertAfterName, hy, h2]⟩

theorem insertAfterName_invariant (f : Handle → String) (a : String) (d : Handle)
    (l : List Handle) (n : Nat) (ha : ∀ p ∈ l, p < n) (hn : l.Nodup) (hd : d = n) :
    (∀ p ∈ SessionEntity.insertAfterName f a d l, p < n + 1)
      ∧ (SessionEntity.insertAfterName f a d l).Nodup := by
  have hdl : d ∉ l := fun h => absurd (ha d h) (by rw [hd]; exact Nat.lt_irrefl _)
  rcases insertAfterName_cases f a d l with h | ⟨pre, x, post, h1, h2⟩
  · rw [h]; exact ⟨fun p hp => Nat.lt_succ_of_lt (ha p hp), hn⟩
  · rw [h2]
    have hperm : (pre ++ x :: d :: post).Perm (d :: l) := by
      rw [h1]
      have h3 : (pre ++ x :: d :: post).Perm (d :: (pre ++ x :: post)) := by
        have h4 : pre ++ x :: d :: post = (pre ++ [x]) ++ d :: post := by simp
        have h5 : pre ++ x :: post = (pre ++ [x]) ++ post := by simp
        rw [h4, h5]
        exact List.perm_middle
      exact h3
    constructor
    · intro p hp
      rcases List.mem_cons.1 (hperm.mem_iff.1 hp) with h | h
      · rw [h, hd]; exact Nat.lt_succ_self _
      · exact Nat.lt_succ_of_lt (ha p h)
    · exact hperm.nodup_iff.2 (List.nodup_cons.2 ⟨hdl, hn⟩)

/-! ## The invariant of the database list -/

theorem appendCreatedDatabase_of_not_mem (c : Connection) (name : String)
    (afterName : Option String) (s : SessionEntity) (h : name ∉ c.allDatabases true) :
    SessionEntity.appendCreatedDatabase c name afterName s = s.call (.allDatabases true) := by
  simp [SessionEntity.appendCreatedDatabase, h]

theorem appendCreatedDatabase_of_mem (c : Connection) (name : String)
    (afterName : Option String) (s : SessionEntity) (h : name ∈ c.allDatabases true) :
    SessionEntity.appendCreatedDatabase c name afterName s
      = (((match afterName with
            | some a =>
              { (EntityFactory.createDataBase name (SessionEntity.initDatabasesListIfNeed c
                    (s.call (.allDatabases true)))).2 with
                _databases := SessionEntity.insertAfterName
                  (EntityFactory.createDataBase name (SessionEntity.initDatabasesListIfNeed c
                    (s.call (.allDatabases true)))).2.nameOf a
                  (SessionEntity.initDatabasesListIfNeed c
                    (s.call (.allDatabases true))).nextHandle
                  (SessionEntity.initDatabasesListIfNeed c
                    (s.call (.allDatabases true)))._databases }
            | none =>
              { (EntityFactory.createDataBase name (SessionEntity.initDatabasesListIfNeed c
                    (s.call (.allDatabases true)))).2 with
                _databases := (SessionEntity.initDatabasesListIfNeed c
                    (s.call (.allDatabases true)))._databases
                  ++ [(SessionEntity.initDatabasesListIfNeed c
                    (s.call (.allDatabases true))).nextHandle] }).emit
          (.databaseInserted (SessionEntity.initDatabasesListIfNeed c
            (s.call (.allDatabases true))).nextHandle)).emit
          (.entityInserted (.dataBase (SessionEntity.initDatabasesListIfNeed c
            (s.call (.allDatabases true))).nextHandle))) := by
  cases afterName <;>
    simp [SessionEntity.appendCreatedDatabase, h, EntityFactory.createDataBase]

theorem Invariant_congr (s t : SessionEntity) (h1 : t._databases = s._databases)
    (h2 : t.nextHandle = s.nextHandle) (h3 : t._databasesWereInit = s._databasesWereInit)
    (h : s.Invariant) : t.Invariant := by
  obtain ⟨ha, hn, he⟩ := h
  refine ⟨?_, ?_, ?_⟩
  · intro p hp; rw [h1] at hp; rw [h2]; exact ha p hp
  · rw [h1]; exact hn
  · intro hf; rw [h3] at hf; rw [h1]; exact he hf

theorem Invariant_appendCreatedDatabase (c : Connection) (name : String)
    (afterName : Option String) (s : SessionEntity) (h : s.Invariant) :
    (SessionEntity.appendCreatedDatabase c name afterName s).Invariant := by
  by_cases hm : name ∈ c.allDatabases true
  · rw [appendCreatedDatabase_of_mem c name afterName s hm]
    have h1 : (s.call (.allDatabases true)).Invariant := Invariant_congr s _ rfl rfl rfl h
    obtain ⟨ha, hn, _⟩ := Invariant_initDatabasesListIfNeed c _ h1
    obtain ⟨hflag, _⟩ := initDatabasesListIfNeed_effect c (s.call (.allDatabases true))
    cases afterName with
    | none =>
      refine ⟨?_, ?_, ?_⟩
      · intro p hp
        have hp2 : p ∈ (SessionEntity.initDatabasesListIfNeed c
            (s.call (.allDatabases true)))._databases
              ++ [(SessionEntity.initDatabasesListIfNeed c
                (s.call (.allDatabases true))).nextHandle] := hp
        rcases List.mem_append.1 hp2 with h2 | h2
        · exact Nat.lt_succ_of_lt (ha p h2)
        · rw [List.mem_singleton.1 h2]; exact Nat.lt_succ_self _
      · show ((SessionEntity.initDatabasesListIfNeed c
            (s.call (.allDatabases true)))._databases
              ++ [(SessionEntity.initDatabasesListIfNeed c
                (s.call (.allDatabases true))).nextHandle]).Nodup
        rw [List.nodup_append]
        refine ⟨hn, List.nodup_singleton _, ?_⟩
        intro a h2 h3
        rw [List.mem_singleton.1 h3] at h2
        exact absurd (ha _ h2) (Nat.lt_irrefl _)
      · intro hf
        have hf2 : (SessionEntity.initDatabasesListIfNeed c
            (s.call (.allDatabases true)))._databasesWereInit = false := hf
        rw [hflag] at hf2; exact absurd hf2 (by decide)
    | some a =>
      obtain ⟨hb1, hb2⟩ := insertAfterName_invariant
        (EntityFactory.createDataBase name (SessionEntity.initDatabasesListIfNeed c
          (s.call (.allDatabases true)))).2.nameOf a
        (SessionEntity.initDatabasesListIfNeed c (s.call (.allDatabases true))).nextHandle
        _ _ ha hn rfl
      refine ⟨hb1, hb2, ?_⟩
      intro hf
      have hf2 : (SessionEntity.initDatabasesListIfNeed c
          (s.call (.allDatabases true)))._databasesWereInit = false := hf
      rw [hflag] at hf2; exact absurd hf2 (by decide)
  · rw [appendCreatedDatabase_of_not_mem c name afterName s hm]
    exact Invariant_congr s _ rfl rfl rfl h

theorem removeEntity_dataBase (e : Handle) (s : SessionEntity) :
    SessionEntity.removeEntity (.dataBase e) s
      = if e ∈ s._databases then
          (true, (({ s.emit (.beforeEntityRemoved (.dataBase e)) with
              _databases := s._databases.erase e }).emit (.databaseRemoved e)).emit
                (.entityRemoved (.dataBase e)))
        else
          (false, { s.emit (.beforeEntityRemoved (.dataBase e)) with
              _databases := s._databases.erase e }) := by
  by_cases h : e ∈ s._databases
  · simp [SessionEntity.removeEntity, SessionEntity.typeOf, EntityType.toInt,
      SessionEntity.emit, h]
  · simp [SessionEntity.removeEntity, SessionEntity.typeOf, EntityType.toInt,
      SessionEntity.emit, h]

/-- What `removeEntity` does to the members of the session: only a database
argument changes the list, by removing its first occurrence. -/
theorem removeEntity_members (entity : Entity) (s : SessionEntity) :
    (SessionEntity.removeEntity entity s).2._databases
        = (match entity with
           | .dataBase e => s._databases.erase e
           | _ => s._databases)
      ∧ (SessionEntity.removeEntity entity s).2.nextHandle = s.nextHandle
      ∧ (SessionEntity.removeEntity entity s).2._databasesWereInit = s._databasesWereInit := by
  cases entity with
  | session =>
    simp [SessionEntity.removeEntity, SessionEntity.typeOf, EntityType.toInt,
      SessionEntity.emit]
  | dataBase e =>
    rw [removeEntity_dataBase]
    by_cases h : e ∈ s._databases
    · simp [h, SessionEntity.emit]
    · simp [h, SessionEntity.emit]
  | inDatabase p =>
    by_cases h2 : p ∈ (s.dataBaseObjects (s.entityObjects p).dataBaseEntity).entities <;>
      cases ht : (s.entityObjects p).type <;>
      simp [SessionEntity.removeEntity, SessionEntity.typeOf, SessionEntity.emit,
        DataBaseEntity.removeEntity, EntityType.toInt, ht, h2]

theorem Invariant_removeEntity (entity : Entity) (s : SessionEntity) (h : s.Invariant) :
    (SessionEntity.removeEntity entity s).2.Invariant := by
  obtain ⟨h1, h2, h3⟩ := removeEntity_members entity s
  cases entity with
  | dataBase e =>
    obtain ⟨ha, hn, he⟩ := h
    refine ⟨?_, ?_, ?_⟩
    · intro p hp; rw [h1] at hp; rw [h2]; exact ha p (List.mem_of_mem_erase hp)
    · rw [h1]; exact hn.erase e
    · intro hf; rw [h3] at hf; rw [h1]; simp [he hf]
  | session => exact Invariant_congr s _ h1 h2 h3 h
  | inDatabase p => exact Invariant_congr s _ h1 h2 h3 h

theorem addEntity_members (entity : Entity) (s : SessionEntity) :
    (SessionEntity.addEntity entity s)._databases = s._databases
      ∧ (SessionEntity.addEntity entity s).nextHandle = s.nextHandle
      ∧ (SessionEntity.addEntity entity s)._databasesWereInit = s._databasesWereInit
      ∧ (SessionEntity.addEntity entity s).emitted = s.emitted
      ∧ (SessionEntity.addEntity entity s).connectionCalls = s.connectionCalls
      ∧ (SessionEntity.addEntity entity s).entityObjects = s.entityObjects := by
  unfold SessionEntity.addEntity
  split
  · cases entity <;> simp [DataBaseEntity.appendEntity]
  · simp

theorem Invariant_insertEntityToDB (c : Connection) (entity : Handle) (s : SessionEntity)
    (h : s.Invariant) : (SessionEntity.insertEntityToDB c entity s).2.Invariant := by
  by_cases hc : c.insertEntityToDB entity = true
  · obtain ⟨h1, h2, h3, _⟩ := addEntity_members (.inDatabase entity)
      (EntityInDatabase.setIsNew entity false (s.call (.insertEntityToDB entity)))
    refine Invariant_congr s _ ?_ ?_ ?_ h
    · simp only [SessionEntity.insertEntityToDB, hc, if_true, SessionEntity.emit]; rw [h1]; rfl
    · simp only [SessionEntity.insertEntityToDB, hc, if_true, SessionEntity.emit]; rw [h2]; rfl
    · simp only [SessionEntity.insertEntityToDB, hc, if_true, SessionEntity.emit]; rw [h3]; rfl
  · refine Invariant_congr s _ ?_ ?_ ?_ h <;>
      simp [SessionEntity.insertEntityToDB, hc, SessionEntity.call]

theorem Invariant_editEntityInDB (c : Connection) (entity newData : Handle)
    (s : SessionEntity) (h : s.Invariant) :
    (SessionEntity.editEntityInDB c entity newData s).Invariant := by
  by_cases hc : c.editEntityInDB entity newData = true
  · refine Invariant_congr s _ ?_ ?_ ?_ h <;>
      simp [SessionEntity.editEntityInDB, hc, SessionEntity.call, SessionEntity.emit,
        EntityInDatabase.copyDataFrom]
  · refine Invariant_congr s _ ?_ ?_ ?_ h <;>
      simp [SessionEntity.editEntityInDB, hc, SessionEntity.call]

theorem Invariant_editDatabase (c : Connection) (database : Handle)
    (newName newCollation : String) (s : SessionEntity) (r : Bool × SessionEntity)
    (h : s.Invariant)
    (hr : SessionEntity.editDatabase c database newName newCollation s = some r) :
    r.2.Invariant := by
  have h2 : ((s.call (.allDatabases false)).call
      (.editDatabase database newName newCollation)).Invariant :=
    Invariant_congr s _ rfl rfl rfl h
  unfold SessionEntity.editDatabase at hr
  simp only at hr
  split at hr
  · split at hr
    · split at hr
      · injection hr with hr
        rw [← hr]
        exact Invariant_congr _ _ rfl rfl rfl h2
      · exact absurd hr (by simp)
    · injection hr with hr
      rw [← hr]
      exact Invariant_appendCreatedDatabase c newName _ _ h2
  · injection hr with hr
    rw [← hr]
    exact h2

/-- The invariant holds in every reachable state. -/
theorem Invariant_of_Reachable (s : SessionEntity) (h : s.Reachable) : s.Invariant := by
  induction h with
  | construct d e n =>
    exact ⟨fun p hp => absurd hp (List.not_mem_nil p), List.nodup_nil, fun _ => rfl⟩
  | childCount c _ ih => exact Invariant_initDatabasesListIfNeed c _ ih
  | child c row _ ih => exact Invariant_initDatabasesListIfNeed c _ ih
  | clearAllDatabaseEntities _ ih =>
    exact ⟨fun p hp => absurd hp (List.not_mem_nil p), List.nodup_nil, fun _ => rfl⟩
  | refreshAllEntities c _ ih =>
    exact Invariant_initDatabasesListIfNeed c _
      ⟨fun p hp => absurd hp (List.not_mem_nil p), List.nodup_nil, fun _ => rfl⟩
  | editEntityInDB c entity newData _ ih => exact Invariant_editEntityInDB c entity newData _ ih
  | insertEntityToDB c entity _ ih => exact Invariant_insertEntityToDB c entity _ ih
  | dropEntityInDB c entity _ ih => exact Invariant_congr _ _ rfl rfl rfl ih
  | dropDatabase c database _ ih => exact Invariant_congr _ _ rfl rfl rfl ih
  | createDatabase c name collation _ ih =>
    unfold SessionEntity.createDatabase
    simp only
    split
    · exact Invariant_appendCreatedDatabase c name none _ (Invariant_congr _ _ rfl rfl rfl ih)
    · exact Invariant_congr _ _ rfl rfl rfl ih
  | appendCreatedDatabase c name afterName _ ih =>
    exact Invariant_appendCreatedDatabase c name afterName _ ih
  | editDatabase c database newName newCollation _ hr ih =>
    exact Invariant_editDatabase c database newName newCollation _ _ ih hr
  | removeEntity entity _ ih => exact Invariant_removeEntity entity _ ih

/-! ## Lazy population -/

/-- C1. `initDatabasesListIfNeed` is idempotent: a second call, whatever the
connection would answer, leaves the whole state as the first call left it, so
the database list is the same (same entities, same order, nothing added) and
no further call to the connection is made; in particular the second call does
not invoke `Connection::databases`. -/
theorem initDatabasesListIfNeed_idempotent (c c2 : Connection) (s : SessionEntity) :
    SessionEntity.initDatabasesListIfNeed c2 (SessionEntity.initDatabasesListIfNeed c s)
        = SessionEntity.initDatabasesListIfNeed c s
      ∧ (SessionEntity.initDatabasesListIfNeed c2
            (SessionEntity.initDatabasesListIfNeed c s))._databases
          = (SessionEntity.initDatabasesListIfNeed c s)._databases
      ∧ (SessionEntity.initDatabasesListIfNeed c2
            (SessionEntity.initDatabasesListIfNeed c s)).connectionCalls
          = (SessionEntity.initDatabasesListIfNeed c s).connectionCalls := by
  have h : SessionEntity.initDatabasesListIfNeed c2 (SessionEntity.initDatabasesListIfNeed c s)
      = SessionEntity.initDatabasesListIfNeed c s := by
    by_cases hs : s._databasesWereInit = true
    · simp [SessionEntity.initDatabasesListIfNeed, hs]
    · simp [SessionEntity.initDatabasesListIfNeed, hs]
  exact ⟨h, by rw [h], by rw [h]⟩

end db
end meow

namespace meow
namespace db

/-! ## Failure atomicity of edit and insert -/

/-- C7. Failure atomicity: when `Connection::editEntityInDB` returns false,
`SessionEntity::editEntityInDB` changes nothing but the record of that one
connection call: every entity object (fields and "is new" flag), every child
sequence, the database list and the emitted signals are as before.  When
`Connection::insertEntityToDB` returns false, `SessionEntity::insertEntityToDB`
returns false and likewise changes nothing else. -/
theorem edit_insert_failure_atomic (c : Connection) (entity newData : Handle)
    (s : SessionEntity) :
    (c.editEntityInDB entity newData = false →
      SessionEntity.editEntityInDB c entity newData s
          = s.call (.editEntityInDB entity newData)
        ∧ (SessionEntity.editEntityInDB c entity newData s).entityObjects = s.entityObjects
        ∧ (SessionEntity.editEntityInDB c entity newData s).dataBaseObjects = s.dataBaseObjects
        ∧ (SessionEntity.editEntityInDB c entity newData s)._databases = s._databases
        ∧ (SessionEntity.editEntityInDB c entity newData s).emitted = s.emitted)
    ∧ (c.insertEntityToDB entity = false →
      SessionEntity.insertEntityToDB c entity s
          = (false, s.call (.insertEntityToDB entity))
        ∧ (SessionEntity.insertEntityToDB c entity s).1 = false
        ∧ (SessionEntity.insertEntityToDB c entity s).2.entityObjects = s.entityObjects
        ∧ (SessionEntity.insertEntityToDB c entity s).2.dataBaseObjects = s.dataBaseObjects
        ∧ (SessionEntity.insertEntityToDB c entity s).2._databases = s._databases
        ∧ (SessionEntity.insertEntityToDB c entity s).2.emitted = s.emitted) := by
  constructor
  · intro h
    have h1 : SessionEntity.editEntityInDB c entity newData s
        = s.call (.editEntityInDB entity newData) := by
      simp [SessionEntity.editEntityInDB, h]
    rw [h1]
    exact ⟨rfl, rfl, rfl, rfl, rfl⟩
  · intro h
    have h1 : SessionEntity.insertEntityToDB c entity s
        = (false, s.call (.insertEntityToDB entity)) := by
      simp [SessionEntity.insertEntityToDB, h]
    rw [h1]
    exact ⟨rfl, rfl, rfl, rfl, rfl, rfl⟩

/-- Witness of C7: the table with handle 7 on the failing server. -/
theorem edit_insert_failure_atomic_witness :
    (Sample.failingServer.editEntityInDB 7 8 = false
      ∧ SessionEntity.editEntityInDB Sample.failingServer 7 8 Sample.populated
          = Sample.populated.call (.editEntityInDB 7 8))
    ∧ (Sample.failingServer.insertEntityToDB 7 = false
      ∧ SessionEntity.insertEntityToDB Sample.failingServer 7 Sample.populated
          = (false, Sample.populated.call (.insertEntityToDB 7))) :=
  ⟨⟨rfl, ((edit_insert_failure_atomic Sample.failingServer 7 8 Sample.populated).1 rfl).1⟩,
   ⟨rfl, ((edit_insert_failure_atomic Sample.failingServer 7 8 Sample.populated).2 rfl).1⟩⟩

/-! ## Ownership of the native result handle -/

theorem freeNative_res (r : MySQLQueryResult) : (MySQLQueryResult.freeNative r)._res = none := by
  cases r with
  | mk res freed => cases res <;> rfl

theorem freeNative_freed (r : MySQLQueryResult) :
    (MySQLQueryResult.freeNative r).freed = r.freed ++ r._res.toList := by
  cases r with
  | mk res freed => cases res <;> simp [MySQLQueryResult.freeNative]

theorem freeNative_of_null (r : MySQLQueryResult) (h : r._res = none) :
    MySQLQueryResult.freeNative r = r := by
  cases r with
  | mk res freed =>
    simp only at h
    subst h
    rfl

theorem freeNativeTimes_succ (n : Nat) (r : MySQLQueryResult) :
    MySQLQueryResult.freeNativeTimes (n + 1) r = MySQLQueryResult.freeNative r := by
  induction n generalizing r with
  | zero => rfl
  | succ n ih =>
    show MySQLQueryResult.freeNativeTimes (n + 1) (MySQLQueryResult.freeNative r) = _
    rw [ih, freeNative_of_null _ (freeNative_res r)]

/-- C8. The native handle is released exactly once.  `freeNative` passes the
handle to `mysql_free_result` once when `_res` is non-null and not at all when
it is null, and sets `_res` to null; a second `freeNative` releases nothing;
and after any number of `freeNative` calls followed by the destructor the
handles released since the start are exactly the handle held at the start, once
(none when none was held), with no handle held any more. -/
theorem freeNative_releases_exactly_once (r : MySQLQueryResult) (n : Nat) :
    (MySQLQueryResult.freeNative r)._res = none
      ∧ (∀ res, r._res = some res → (MySQLQueryResult.freeNative r).freed = r.freed ++ [res])
      ∧ (r._res = none → (MySQLQueryResult.freeNative r).freed = r.freed)
      ∧ MySQLQueryResult.freeNative (MySQLQueryResult.freeNative r)
          = MySQLQueryResult.freeNative r
      ∧ (MySQLQueryResult.destruct (MySQLQueryResult.freeNativeTimes n r))._res = none
      ∧ (MySQLQueryResult.destruct (MySQLQueryResult.freeNativeTimes n r)).freed
          = r.freed ++ r._res.toList := by
  refine ⟨freeNative_res r, ?_, ?_, freeNative_of_null _ (freeNative_res r), ?_, ?_⟩
  · intro res h; rw [freeNative_freed, h]; rfl
  · intro h; rw [freeNative_freed, h]; simp
  · exact freeNative_res _
  · cases n with
    | zero => exact freeNative_freed r
    | succ n =>
      rw [freeNativeTimes_succ]
      show (MySQLQueryResult.freeNative (MySQLQueryResult.freeNative r)).freed = _
      rw [freeNative_of_null _ (freeNative_res r), freeNative_freed]

/-- Witness of C8: a result that holds the handle 5 and is released twice by
hand and then destroyed frees 5 once. -/
theorem freeNative_releases_exactly_once_witness :
    (MySQLQueryResult.destruct
        (MySQLQueryResult.freeNativeTimes 2 { _res := some 5, freed := [] })).freed = [5] :=
  (freeNative_releases_exactly_once { _res := some 5, freed := [] } 2).2.2.2.2.2

/-! ## Server-side existence check of `appendCreatedDatabase` -/

/-- C10. When `name` is not in the list `Connection::allDatabases(true)`
returns, `appendCreatedDatabase` only makes that one connection call: the
database list and the populated flag are unchanged, `Connection::databases` is
not called (no lazy population), no object is created and no signal is
emitted. -/
theorem appendCreatedDatabase_verifies_existence (c : Connection) (name : String)
    (afterName : Option String) (s : SessionEntity) (h : name ∉ c.allDatabases true) :
    SessionEntity.appendCreatedDatabase c name afterName s = s.call (.allDatabases true)
      ∧ (SessionEntity.appendCreatedDatabase c name afterName s)._databases = s._databases
      ∧ (SessionEntity.appendCreatedDatabase c name afterName s)._databasesWereInit
          = s._databasesWereInit
      ∧ (SessionEntity.appendCreatedDatabase c name afterName s).connectionCalls
          = s.connectionCalls ++ [.allDatabases true]
      ∧ (SessionEntity.appendCreatedDatabase c name afterName s).emitted = s.emitted := by
  rw [appendCreatedDatabase_of_not_mem c name afterName s h]
  exact ⟨rfl, rfl, rfl, rfl, rfl⟩

/-- Witness of C10: `gamma` does not exist on the sample server, and the new
session stays unpopulated. -/
theorem appendCreatedDatabase_verifies_existence_witness :
    "gamma" ∉ Sample.server.allDatabases true
      ∧ (SessionEntity.appendCreatedDatabase Sample.server "gamma" none
          Sample.newSession)._databasesWereInit = false
      ∧ (SessionEntity.appendCreatedDatabase Sample.server "gamma" none
          Sample.newSession).emitted = [] :=
  ⟨by decide,
   (appendCreatedDatabase_verifies_existence Sample.server "gamma" none Sample.newSession
      (by decide)).2.2.1,
   (appendCreatedDatabase_verifies_existence Sample.server "gamma" none Sample.newSession
      (by decide)).2.2.2.2⟩

end db
end meow

namespace meow
namespace db

/-! ## Population of an unpopulated session -/

/-- The populating call on a state whose list is empty. -/
theorem initDatabasesListIfNeed_populates (c : Connection) (s : SessionEntity)
    (hflag : s._databasesWereInit = false) (hnil : s._databases = []) :
    (SessionEntity.initDatabasesListIfNeed c s).databaseNames = c.databases true
      ∧ (SessionEntity.initDatabasesListIfNeed c s)._databases.length
          = (c.databases true).length
      ∧ (SessionEntity.initDatabasesListIfNeed c s)._databasesWereInit = true
      ∧ (SessionEntity.initDatabasesListIfNeed c s).connectionCalls
          = s.connectionCalls ++ [.databases true] := by
  rw [initDatabasesListIfNeed_of_not_init c s hflag]
  obtain ⟨h1, _, _, h4, _, _, _, h8⟩ :=
    foldl_pushCreated (c.databases true) (s.call (.databases true))
  have h1b : ((c.databases true).foldl SessionEntity.pushCreated
      (s.call (.databases true)))._databases
        = List.range' s.nextHandle (c.databases true).length := by
    rw [h1]
    show s._databases ++ _ = _
    rw [hnil]; rfl
  refine ⟨?_, ?_, rfl, ?_⟩
  · show List.map _ ((c.databases true).foldl SessionEntity.pushCreated
      (s.call (.databases true)))._databases = _
    rw [h1b]
    exact h8
  · show ((c.databases true).foldl SessionEntity.pushCreated
      (s.call (.databases true)))._databases.length = _
    rw [h1b, List.length_range']
  · show ((c.databases true).foldl SessionEntity.pushCreated
      (s.call (.databases true))).connectionCalls = _
    rw [h4]; rfl

/-- C9. In every reachable state in which the databases are not populated, the
populating call of `initDatabasesListIfNeed` queries
`Connection::databases(true)` once and leaves a database list whose entity
names are the returned names, element for element, in the same order and with
the same length, with the populated flag set.  The same holds for the call
that follows `clearAllDatabaseEntities` and for `refreshAllEntities`. -/
theorem initDatabasesListIfNeed_builds_server_list (c : Connection) (s : SessionEntity)
    (hreach : s.Reachable) :
    (s._databasesWereInit = false →
      (SessionEntity.initDatabasesListIfNeed c s).databaseNames = c.databases true
        ∧ (SessionEntity.initDatabasesListIfNeed c s)._databases.length
            = (c.databases true).length
        ∧ (SessionEntity.initDatabasesListIfNeed c s)._databasesWereInit = true
        ∧ (SessionEntity.initDatabasesListIfNeed c s).connectionCalls
            = s.connectionCalls ++ [.databases true])
    ∧ ((SessionEntity.initDatabasesListIfNeed c
          (SessionEntity.clearAllDatabaseEntities s)).databaseNames = c.databases true
        ∧ (SessionEntity.initDatabasesListIfNeed c
            (SessionEntity.clearAllDatabaseEntities s))._databases.length
            = (c.databases true).length
        ∧ (SessionEntity.initDatabasesListIfNeed c
            (SessionEntity.clearAllDatabaseEntities s))._databasesWereInit = true
        ∧ (SessionEntity.initDatabasesListIfNeed c
            (SessionEntity.clearAllDatabaseEntities s)).connectionCalls
            = s.connectionCalls ++ [.databases true])
    ∧ ((SessionEntity.refreshAllEntities c s).databaseNames = c.databases true
        ∧ (SessionEntity.refreshAllEntities c s)._databases.length
            = (c.databases true).length
        ∧ (SessionEntity.refreshAllEntities c s)._databasesWereInit = true
        ∧ (SessionEntity.refreshAllEntities c s).connectionCalls
            = s.connectionCalls ++ [.databases true]) := by
  obtain ⟨_, _, hempty⟩ := Invariant_of_Reachable s hreach
  exact ⟨fun hflag => initDatabasesListIfNeed_populates c s hflag (hempty hflag),
    initDatabasesListIfNeed_populates c (SessionEntity.clearAllDatabaseEntities s) rfl rfl,
    initDatabasesListIfNeed_populates c (SessionEntity.clearAllDatabaseEntities s) rfl rfl⟩

/-- Witness of C9: a session that was populated, lost a database and was
cleared is populated again from the server's answer. -/
theorem initDatabasesListIfNeed_builds_server_list_witness :
    (SessionEntity.clearAllDatabaseEntities
        (SessionEntity.removeEntity (.dataBase 0) Sample.populated).2).Reachable
      ∧ (SessionEntity.clearAllDatabaseEntities
          (SessionEntity.removeEntity (.dataBase 0) Sample.populated).2)._databasesWereInit
            = false
      ∧ (SessionEntity.initDatabasesListIfNeed Sample.serverWithGamma
          (SessionEntity.clearAllDatabaseEntities
            (SessionEntity.removeEntity (.dataBase 0) Sample.populated).2)).databaseNames
          = ["alpha", "beta", "gamma"] :=
  ⟨.clearAllDatabaseEntities (.removeEntity _ (.refreshAllEntities _ (.construct _ _ _))),
   rfl,
   ((initDatabasesListIfNeed_builds_server_list Sample.serverWithGamma _
      (.clearAllDatabaseEntities
        (.removeEntity _ (.refreshAllEntities _ (.construct _ _ _))))).1 rfl).1⟩

/-! ## Removal of a database -/

/-- C3. In every reachable state, when `removeEntity` returns true for a
database entity, the entity no longer occurs in the database list, and the list
is the previous one without it: every other entity is still present, in its
previous relative order.  The call returns true exactly when the entity was in
the list. -/
theorem removeEntity_database_unlinks (s : SessionEntity) (e : Handle)
    (hreach : s.Reachable)
    (hret : (SessionEntity.removeEntity (.dataBase e) s).1 = true) :
    e ∉ (SessionEntity.removeEntity (.dataBase e) s).2._databases
      ∧ (SessionEntity.removeEntity (.dataBase e) s).2._databases
          = s._databases.filter (fun p => p != e)
      ∧ (∀ p, p ≠ e →
          (p ∈ (SessionEntity.removeEntity (.dataBase e) s).2._databases ↔ p ∈ s._databases))
      ∧ (SessionEntity.removeEntity (.dataBase e) s).2._databases.Sublist s._databases
      ∧ e ∈ s._databases := by
  obtain ⟨_, hn, _⟩ := Invariant_of_Reachable s hreach
  have hlist : (SessionEntity.removeEntity (.dataBase e) s).2._databases
      = s._databases.erase e := (removeEntity_members (.dataBase e) s).1
  have hmem : e ∈ s._databases := by
    rw [removeEntity_dataBase] at hret
    by_cases h : e ∈ s._databases
    · exact h
    · simp [h] at hret
  rw [hlist]
  refine ⟨?_, hn.erase_eq_filter e, ?_, List.erase_sublist e _, hmem⟩
  · exact hn.not_mem_erase
  · intro p hp
    exact List.mem_erase_of_ne hp

/-- Witness of C3: removing the first database of the populated session. -/
theorem removeEntity_database_unlinks_witness :
    Sample.populated.Reachable
      ∧ (SessionEntity.removeEntity (.dataBase 0) Sample.populated).1 = true
      ∧ (0 : Handle) ∉ (SessionEntity.removeEntity (.dataBase 0) Sample.populated).2._databases
      ∧ (SessionEntity.removeEntity (.dataBase 0) Sample.populated).2._databases
          = Sample.populated._databases.filter (fun p => p != 0) :=
  ⟨.refreshAllEntities _ (.construct _ _ _), rfl,
   (removeEntity_database_unlinks Sample.populated 0
      (.refreshAllEntities _ (.construct _ _ _)) rfl).1,
   (removeEntity_database_unlinks Sample.populated 0
      (.refreshAllEntities _ (.construct _ _ _)) rfl).2.1⟩

end db
end meow

namespace meow
namespace db

/-! ## Position of a created database -/

theorem createDataBase_nameOf_old (name : String) (s : SessionEntity) (y : Handle)
    (hy : y < s.nextHandle) :
    (EntityFactory.createDataBase name s).2.nameOf y = s.nameOf y := by
  have hne : y ≠ s.nextHandle := Nat.ne_of_lt hy
  simp [EntityFactory.createDataBase, SessionEntity.nameOf, Function.update, hne]

theorem createDataBase_nameOf_new (name : String) (s : SessionEntity) :
    (EntityFactory.createDataBase name s).2.nameOf s.nextHandle = name := by
  simp [EntityFactory.createDataBase, SessionEntity.nameOf]

/-- The members of the state after an `appendCreatedDatabase` that passed the
existence check, in terms of the state `t` left by the lazy population. -/
theorem appendCreatedDatabase_members (c : Connection) (name : String)
    (afterName : Option String) (s : SessionEntity) (h : name ∈ c.allDatabases true) :
    (SessionEntity.appendCreatedDatabase c name afterName s)._databases
        = (match afterName with
           | some a =>
             SessionEntity.insertAfterName
               (EntityFactory.createDataBase name (SessionEntity.initDatabasesListIfNeed c
                 (s.call (.allDatabases true)))).2.nameOf a
               (SessionEntity.initDatabasesListIfNeed c
                 (s.call (.allDatabases true))).nextHandle
               (SessionEntity.initDatabasesListIfNeed c
                 (s.call (.allDatabases true)))._databases
           | none =>
             (SessionEntity.initDatabasesListIfNeed c
                 (s.call (.allDatabases true)))._databases
               ++ [(SessionEntity.initDatabasesListIfNeed c
                 (s.call (.allDatabases true))).nextHandle])
      ∧ (SessionEntity.appendCreatedDatabase c name afterName s).dataBaseObjects
          = (EntityFactory.createDataBase name (SessionEntity.initDatabasesListIfNeed c
              (s.call (.allDatabases true)))).2.dataBaseObjects
      ∧ (SessionEntity.appendCreatedDatabase c name afterName s).emitted
          = s.emitted
            ++ [.databaseInserted (SessionEntity.initDatabasesListIfNeed c
                  (s.call (.allDatabases true))).nextHandle,
                .entityInserted (.dataBase (SessionEntity.initDatabasesListIfNeed c
                  (s.call (.allDatabases true))).nextHandle)] := by
  obtain ⟨_, hem, _⟩ := initDatabasesListIfNeed_effect c (s.call (.allDatabases true))
  have hem2 : (SessionEntity.initDatabasesListIfNeed c (s.call (.allDatabases true))).emitted
      = s.emitted := hem
  rw [appendCreatedDatabase_of_mem c name afterName s h]
  cases afterName with
  | none =>
    refine ⟨rfl, rfl, ?_⟩
    simp [SessionEntity.emit, EntityFactory.createDataBase, hem2]
  | some a =>
    refine ⟨rfl, rfl, ?_⟩
    simp [SessionEntity.emit, EntityFactory.createDataBase, hem2]

/-- C4. In a populated state whose listed entities are existing objects, and
for a name contained in the re-fetched `Connection::allDatabases(true)` list:
with a null `afterName` the new list is the previous list with the new entity
appended at the end; with an `afterName` that names an entity of the list the
new list is the previous list with the new entity inserted directly after the
first entity named `afterName`.  The new entity is named `name`, it is none of
the previous entities, and the previous entities keep their objects and their
relative order. -/
theorem appendCreatedDatabase_position (c : Connection) (name : String) (s : SessionEntity)
    (hinit : s._databasesWereInit = true) (hname : name ∈ c.allDatabases true)
    (halloc : s.Allocated) :
    (SessionEntity.appendCreatedDatabase c name none s)._databases
        = s._databases ++ [s.nextHandle]
      ∧ (∀ (a : String) (pre : List Handle) (x : Handle) (post : List Handle),
          s._databases = pre ++ x :: post → s.nameOf x = a →
          (∀ y ∈ pre, s.nameOf y ≠ a) →
          (SessionEntity.appendCreatedDatabase c name (some a) s)._databases
            = pre ++ x :: s.nextHandle :: post)
      ∧ (∀ a : String, (∃ y ∈ s._databases, s.nameOf y = a) →
          ∃ pre x post, s._databases = pre ++ x :: post ∧ s.nameOf x = a
            ∧ (∀ y ∈ pre, s.nameOf y ≠ a)
            ∧ (SessionEntity.appendCreatedDatabase c name (some a) s)._databases
                = pre ++ x :: s.nextHandle :: post)
      ∧ (∀ afterName : Option String,
          (SessionEntity.appendCreatedDatabase c name afterName s).nameOf s.nextHandle = name
            ∧ ∀ p ∈ s._databases,
                (SessionEntity.appendCreatedDatabase c name afterName s).dataBaseObjects p
                  = s.dataBaseObjects p)
      ∧ s.nextHandle ∉ s._databases := by
  have hi : SessionEntity.initDatabasesListIfNeed c (s.call (.allDatabases true))
      = s.call (.allDatabases true) := initDatabasesListIfNeed_of_init c _ hinit
  have hfound : ∀ (a : String) (pre : List Handle) (x : Handle) (post : List Handle),
      s._databases = pre ++ x :: post → s.nameOf x = a →
      (∀ y ∈ pre, s.nameOf y ≠ a) →
      (SessionEntity.appendCreatedDatabase c name (some a) s)._databases
        = pre ++ x :: s.nextHandle :: post := by
    intro a pre x post hl hx hpre
    rw [(appendCreatedDatabase_members c name (some a) s hname).1, hi]
    show SessionEntity.insertAfterName _ a s.nextHandle s._databases = _
    rw [insertAfterName_congr _ s.nameOf a s.nextHandle s._databases
      (fun y hy => createDataBase_nameOf_old name (s.call (.allDatabases true)) y (halloc y hy))]
    rw [hl]
    exact insertAfterName_found s.nameOf a s.nextHandle x pre post hx hpre
  refine ⟨?_, hfound, ?_, ?_, ?_⟩
  · rw [(appendCreatedDatabase_members c name none s hname).1, hi]; rfl
  · intro a hex
    obtain ⟨pre, x, post, h1, h2, h3⟩ := exists_first_named s.nameOf a s._databases hex
    exact ⟨pre, x, post, h1, h2, h3, hfound a pre x post h1 h2 h3⟩
  · intro afterName
    have hobj := (appendCreatedDatabase_members c name afterName s hname).2.1
    rw [hi] at hobj
    constructor
    · show ((SessionEntity.appendCreatedDatabase c name afterName s).dataBaseObjects
        s.nextHandle).name = name
      rw [hobj]
      exact createDataBase_nameOf_new name (s.call (.allDatabases true))
    · intro p hp
      rw [hobj]
      have hne : p ≠ s.nextHandle := Nat.ne_of_lt (halloc p hp)
      simp [EntityFactory.createDataBase, SessionEntity.call, Function.update, hne]
  · intro hmem
    exact absurd (halloc _ hmem) (Nat.lt_irrefl _)

/-- Witness of C4: `gamma` is appended at the end of the populated list, and
inserted directly after `alpha` when `afterName` is `alpha`. -/
theorem appendCreatedDatabase_position_witness :
    Sample.populated._databasesWereInit = true
      ∧ "gamma" ∈ Sample.serverWithGamma.allDatabases true
      ∧ Sample.populated.Allocated
      ∧ (SessionEntity.appendCreatedDatabase Sample.serverWithGamma "gamma" none
          Sample.populated)._databases = [0, 1] ++ [2]
      ∧ (SessionEntity.appendCreatedDatabase Sample.serverWithGamma "gamma" (some "alpha")
          Sample.populated)._databases = [] ++ 0 :: 2 :: [1] :=
  ⟨rfl, by decide, by unfold SessionEntity.Allocated; decide,
   (appendCreatedDatabase_position Sample.serverWithGamma "gamma" Sample.populated rfl
      (by decide) (by unfold SessionEntity.Allocated; decide)).1,
   (appendCreatedDatabase_position Sample.serverWithGamma "gamma" Sample.populated rfl
      (by decide) (by unfold SessionEntity.Allocated; decide)).2.1 "alpha" [] 0 [1] rfl rfl
      (fun _ h => absurd h (List.not_mem_nil _))⟩

end db
end meow

namespace meow
namespace db

/-! ## An `afterName` that names no cached entity -/

/-- C5, the code at the failing input.  On the populated session, with `gamma`
present on the server, `appendCreatedDatabase("gamma", "ghost")` leaves the
list `[0, 1]` as it is (no entity is named `ghost`), yet it emits
`databaseInserted` and `entityInserted` for the new entity 2, which is not in
the list.  The same happens through `editDatabase` for a database that was
removed from the list before. -/
theorem appendCreatedDatabase_afterName_unknown :
    "gamma" ∈ Sample.serverWithGamma.allDatabases true
      ∧ (SessionEntity.appendCreatedDatabase Sample.serverWithGamma "gamma" (some "ghost")
          Sample.populated)._databases = Sample.populated._databases
      ∧ (SessionEntity.appendCreatedDatabase Sample.serverWithGamma "gamma" (some "ghost")
          Sample.populated)._databases = [0, 1]
      ∧ (SessionEntity.appendCreatedDatabase Sample.serverWithGamma "gamma" (some "ghost")
          Sample.populated).emitted
            = [.databaseInserted 2, .entityInserted (.dataBase 2)]
      ∧ (2 : Handle) ∉ (SessionEntity.appendCreatedDatabase Sample.serverWithGamma "gamma"
          (some "ghost") Sample.populated)._databases
      ∧ (SessionEntity.editDatabase Sample.serverWithGamma 0 "gamma" ""
          (SessionEntity.removeEntity (.dataBase 0) Sample.populated).2).map
            (fun r => (r.1, r.2._databases))
          = some (true, [1]) := by
  refine ⟨by decide, by decide, by decide, by decide, by decide, by decide⟩

end db
end meow

namespace meow
namespace db

/-! ## The two-phase protocol of `editDatabase` -/

theorem editDatabase_of_unchanged (c : Connection) (database : Handle)
    (newName newCollation : String) (s : SessionEntity)
    (h : c.editDatabase database newName newCollation = false) :
    SessionEntity.editDatabase c database newName newCollation s
      = some (false, (s.call (.allDatabases false)).call
          (.editDatabase database newName newCollation)) := by
  simp [SessionEntity.editDatabase, h]

theorem editDatabase_of_created (c : Connection) (database : Handle)
    (newName newCollation : String) (s : SessionEntity)
    (h : c.editDatabase database newName newCollation = true)
    (hnew : newName ∉ c.allDatabases false) :
    SessionEntity.editDatabase c database newName newCollation s
      = some (true, SessionEntity.appendCreatedDatabase c newName (some (s.nameOf database))
          ((s.call (.allDatabases false)).call
            (.editDatabase database newName newCollation))) := by
  simp [SessionEntity.editDatabase, h, hnew, SessionEntity.nameOf, SessionEntity.call]

theorem editDatabase_of_existing (c : Connection) (database : Handle)
    (newName newCollation : String) (s : SessionEntity)
    (h : c.editDatabase database newName newCollation = true)
    (hold : newName ∈ c.allDatabases false) :
    SessionEntity.editDatabase c database newName newCollation s
      = (match s.databaseByName newName with
         | some existing =>
           some (true, (DataBaseEntity.clearChildren existing
             ((s.call (.allDatabases false)).call
               (.editDatabase database newName newCollation))).emit
                 (.entityEdited (.dataBase existing)))
         | none => none) := by
  have hb : SessionEntity.databaseByName ((s.call (.allDatabases false)).call
      (.editDatabase database newName newCollation)) newName
        = s.databaseByName newName := rfl
  have hc : (c.allDatabases false).contains newName = true := by simpa using hold
  unfold SessionEntity.editDatabase
  simp only [h, hc, if_true]
  rw [hb]

/-- An entity of the list is still in the list after `appendCreatedDatabase`. -/
theorem appendCreatedDatabase_mem_of_mem (c : Connection) (name : String)
    (afterName : Option String) (s : SessionEntity) (p : Handle) (hp : p ∈ s._databases) :
    p ∈ (SessionEntity.appendCreatedDatabase c name afterName s)._databases := by
  by_cases hm : name ∈ c.allDatabases true
  · obtain ⟨_, _, _, _, k, hk, _⟩ :=
      initDatabasesListIfNeed_effect c (s.call (.allDatabases true))
    have hp2 : p ∈ (SessionEntity.initDatabasesListIfNeed c
        (s.call (.allDatabases true)))._databases := by
      rw [hk]; exact List.mem_append_left _ hp
    rw [(appendCreatedDatabase_members c name afterName s hm).1]
    cases afterName with
    | none => exact List.mem_append_left _ hp2
    | some a =>
      show p ∈ SessionEntity.insertAfterName _ a _ _
      rcases insertAfterName_cases
        (EntityFactory.createDataBase name (SessionEntity.initDatabasesListIfNeed c
          (s.call (.allDatabases true)))).2.nameOf a
        (SessionEntity.initDatabasesListIfNeed c (s.call (.allDatabases true))).nextHandle
        (SessionEntity.initDatabasesListIfNeed c (s.call (.allDatabases true)))._databases
        with h | ⟨pre, x, post, h1, h2⟩
      · rw [h]; exact hp2
      · rw [h2]
        rw [h1] at hp2
        rcases List.mem_append.1 hp2 with h3 | h3
        · exact List.mem_append_left _ h3
        · rcases List.mem_cons.1 h3 with h4 | h4
          · rw [h4]; exact List.mem_append_right _ (List.mem_cons_self _ _)
          · exact List.mem_append_right _
              (List.mem_cons_of_mem _ (List.mem_cons_of_mem _ h4))
  · rw [appendCreatedDatabase_of_not_mem c name afterName s hm]
    exact hp

/-- C6, the claim at a concrete input.  On the populated session
`editDatabase` of the database 0 to the new name `gamma` succeeds on the server
and `gamma` was not in the `Connection::allDatabases()` list, but the
re-fetched `Connection::allDatabases(true)` list does not contain `gamma`
either: the call returns true and places no new entity, the list is still
`[0, 1]` with the names `alpha` and `beta`. -/
theorem editDatabase_places_nothing_when_not_refetched :
    Sample.server.editDatabase 0 "gamma" "" = true
      ∧ "gamma" ∉ Sample.server.allDatabases false
      ∧ (SessionEntity.editDatabase Sample.server 0 "gamma" "" Sample.populated).map
            (fun r => (r.1, r.2._databases, r.2.databaseNames, r.2.emitted))
          = some (true, [0, 1], ["alpha", "beta"], []) := by
  refine ⟨by decide, by decide, by decide⟩

end db
end meow

namespace meow
namespace db

/-- The placement done by a successful `editDatabase` to a name that is new on
the server, when the old entity is the first entity of the list with its
name. -/
theorem appendCreatedDatabase_after_entity (c : Connection) (name : String)
    (s : SessionEntity) (database : Handle) (pre post : List Handle)
    (hname : name ∈ c.allDatabases true) (halloc : s.Allocated)
    (hl : s._databases = pre ++ database :: post)
    (hpre : ∀ y ∈ pre, s.nameOf y ≠ s.nameOf database) :
    ∃ k : Nat,
      (SessionEntity.appendCreatedDatabase c name (some (s.nameOf database)) s)._databases
          = pre ++ database :: (s.nextHandle + k) :: (post ++ List.range' s.nextHandle k)
        ∧ (SessionEntity.appendCreatedDatabase c name (some (s.nameOf database)) s).nameOf
            (s.nextHandle + k) = name
        ∧ (s._databasesWereInit = true → k = 0) := by
  obtain ⟨_, _, _, hobj, k, hk1, hk2, hk3⟩ :=
    initDatabasesListIfNeed_effect c (s.call (.allDatabases true))
  have hk1b : (SessionEntity.initDatabasesListIfNeed c (s.call (.allDatabases true)))._databases
      = pre ++ database :: (post ++ List.range' s.nextHandle k) := by
    rw [hk1]
    show s._databases ++ List.range' s.nextHandle k = _
    rw [hl]; simp
  have hk2b : (SessionEntity.initDatabasesListIfNeed c (s.call (.allDatabases true))).nextHandle
      = s.nextHandle + k := hk2
  have hnames : ∀ y ∈ s._databases,
      (EntityFactory.createDataBase name (SessionEntity.initDatabasesListIfNeed c
        (s.call (.allDatabases true)))).2.nameOf y = s.nameOf y := by
    intro y hy
    have hy1 : y < s.nextHandle := halloc y hy
    rw [createDataBase_nameOf_old name _ y
      (by rw [hk2b]; exact Nat.lt_of_lt_of_le hy1 (Nat.le_add_right _ _))]
    show ((SessionEntity.initDatabasesListIfNeed c
      (s.call (.allDatabases true))).dataBaseObjects y).name = _
    rw [hobj y hy1]
    rfl
  have hdb : database ∈ s._databases := by
    rw [hl]; exact List.mem_append_right _ (List.mem_cons_self _ _)
  refine ⟨k, ?_, ?_, hk3⟩
  · rw [(appendCreatedDatabase_members c name (some (s.nameOf database)) s hname).1]
    show SessionEntity.insertAfterName _ _ _ _ = _
    rw [hk1b, hk2b]
    refine insertAfterName_found _ _ _ database pre _ (hnames database hdb) ?_
    intro y hy
    rw [hnames y (by rw [hl]; exact List.mem_append_left _ hy)]
    exact hpre y hy
  · show ((SessionEntity.appendCreatedDatabase c name (some (s.nameOf database))
      s).dataBaseObjects (s.nextHandle + k)).name = name
    rw [(appendCreatedDatabase_members c name (some (s.nameOf database)) s hname).2.1]
    rw [← hk2b]
    exact createDataBase_nameOf_new name _

/-- C6, as amended.  `editDatabase` never removes the old entity: whenever the
call returns, its result is the answer of `Connection::editDatabase` and the
old entity, if it was in the list, still is.  When that answer is false the
call returns false, the list is unchanged and nothing is emitted.  When the
answer is true, `newName` was not in the `Connection::allDatabases()` list, it
is in the re-fetched `Connection::allDatabases(true)` list, and the old entity
is in the list as the first entity with its name, the call returns true and a
new entity named `newName` stands directly after the old entity (the entities
of a lazy population, if one was due, are added at the end).  When the answer
is true and `newName` was in the `Connection::allDatabases()` list, the call
returns, with the list unchanged, if the list has an entity named
`newName`. -/
theorem editDatabase_two_phase (c : Connection) (database : Handle)
    (newName newCollation : String) (s : SessionEntity) :
    (∀ r, SessionEntity.editDatabase c database newName newCollation s = some r →
        r.1 = c.editDatabase database newName newCollation
          ∧ (database ∈ s._databases → database ∈ r.2._databases))
      ∧ (c.editDatabase database newName newCollation = false →
          ∃ s2, SessionEntity.editDatabase c database newName newCollation s = some (false, s2)
            ∧ s2._databases = s._databases ∧ s2.emitted = s.emitted
            ∧ s2.dataBaseObjects = s.dataBaseObjects)
      ∧ (c.editDatabase database newName newCollation = true →
          newName ∉ c.allDatabases false → newName ∈ c.allDatabases true → s.Allocated →
          ∀ pre post : List Handle, s._databases = pre ++ database :: post →
          (∀ y ∈ pre, s.nameOf y ≠ s.nameOf database) →
          ∃ s2 k, SessionEntity.editDatabase c database newName newCollation s = some (true, s2)
            ∧ s2._databases
                = pre ++ database :: (s.nextHandle + k) :: (post ++ List.range' s.nextHandle k)
            ∧ s2.nameOf (s.nextHandle + k) = newName
            ∧ (s._databasesWereInit = true → k = 0))
      ∧ (c.editDatabase database newName newCollation = true →
          newName ∈ c.allDatabases false →
          ∀ existing, s.databaseByName newName = some existing →
          ∃ s2, SessionEntity.editDatabase c database newName newCollation s = some (true, s2)
            ∧ s2._databases = s._databases) := by
  refine ⟨?_, ?_, ?_, ?_⟩
  · intro r hr
    by_cases hc : c.editDatabase database newName newCollation = true
    · by_cases hold : newName ∈ c.allDatabases false
      · rw [editDatabase_of_existing c database newName newCollation s hc hold] at hr
        cases hfind : s.databaseByName newName with
        | none => rw [hfind] at hr; exact absurd hr (by simp)
        | some existing =>
          rw [hfind] at hr
          injection hr with hr
          rw [← hr, hc]
          exact ⟨rfl, fun h => h⟩
      · rw [editDatabase_of_created c database newName newCollation s hc hold] at hr
        injection hr with hr
        rw [← hr, hc]
        exact ⟨rfl, fun h => appendCreatedDatabase_mem_of_mem c newName _ _ database h⟩
    · have hc2 : c.editDatabase database newName newCollation = false := by simpa using hc
      rw [editDatabase_of_unchanged c database newName newCollation s hc2] at hr
      injection hr with hr
      rw [← hr, hc2]
      exact ⟨rfl, fun h => h⟩
  · intro hc
    exact ⟨_, editDatabase_of_unchanged c database newName newCollation s hc, rfl, rfl, rfl⟩
  · intro hc hnew hname halloc pre post hl hpre
    obtain ⟨k, h1, h2, h3⟩ := appendCreatedDatabase_after_entity c newName
      ((s.call (.allDatabases false)).call (.editDatabase database newName newCollation))
      database pre post hname halloc hl hpre
    exact ⟨_, k, editDatabase_of_created c database newName newCollation s hc hnew, h1, h2, h3⟩
  · intro hc hold existing hfind
    rw [editDatabase_of_existing c database newName newCollation s hc hold, hfind]
    exact ⟨_, rfl, rfl⟩

/-- Witness of C6 as amended: renaming `alpha` to `gamma` on the populated
session, with `gamma` present in the re-fetched list, places the new entity 2
directly after the entity 0. -/
theorem editDatabase_two_phase_witness :
    Sample.serverWithGamma.editDatabase 0 "gamma" "" = true
      ∧ "gamma" ∉ Sample.serverWithGamma.allDatabases false
      ∧ "gamma" ∈ Sample.serverWithGamma.allDatabases true
      ∧ Sample.populated.Allocated
      ∧ Sample.populated._databases = [] ++ 0 :: [1]
      ∧ ∃ s2 k, SessionEntity.editDatabase Sample.serverWithGamma 0 "gamma" ""
            Sample.populated = some (true, s2)
          ∧ s2._databases
              = [] ++ 0 :: (Sample.populated.nextHandle + k)
                  :: ([1] ++ List.range' Sample.populated.nextHandle k)
          ∧ s2.nameOf (Sample.populated.nextHandle + k) = "gamma"
          ∧ (Sample.populated._databasesWereInit = true → k = 0) :=
  ⟨rfl, by decide, by decide, by unfold SessionEntity.Allocated; decide, rfl,
   (editDatabase_two_phase Sample.serverWithGamma 0 "gamma" "" Sample.populated).2.2.1
      rfl (by decide) (by decide) (by unfold SessionEntity.Allocated; decide) [] [1] rfl
      (fun _ h => absurd h (List.not_mem_nil _))⟩

end db
end meow

namespace meow
namespace db

/-! ## Insertion of an entity into its database -/

end db
end meow

namespace meow
namespace db

/-! ## Notifications of `removeEntity` -/

/-- C11. For a database entity, the signals one call of `removeEntity` emits
are, in this order, `beforeEntityRemoved` and then, only when the entity was
found in the list and unlinked, `databaseRemoved` followed by `entityRemoved`;
when it was not found, `beforeEntityRemoved` alone.  The call returns true
exactly when the entity was in the list, `entityRemoved` is among the emitted
signals exactly when the call returns true, and the first signal of the call
is always `beforeEntityRemoved` for the same entity. -/
theorem removeEntity_database_notification_order (e : Handle) (s : SessionEntity) :
    (SessionEntity.removeEntity (.dataBase e) s).2.emitted
        = s.emitted
          ++ (if (SessionEntity.removeEntity (.dataBase e) s).1 = true then
                [.beforeEntityRemoved (.dataBase e), .databaseRemoved e,
                  .entityRemoved (.dataBase e)]
              else [.beforeEntityRemoved (.dataBase e)])
      ∧ ((SessionEntity.removeEntity (.dataBase e) s).1 = true ↔ e ∈ s._databases)
      ∧ (Signal.entityRemoved (.dataBase e)
            ∈ (SessionEntity.removeEntity (.dataBase e) s).2.emitted.drop s.emitted.length
          ↔ (SessionEntity.removeEntity (.dataBase e) s).1 = true)
      ∧ ((SessionEntity.removeEntity (.dataBase e) s).2.emitted.drop s.emitted.length).head?
          = some (.beforeEntityRemoved (.dataBase e)) := by
  rw [removeEntity_dataBase]
  by_cases h : e ∈ s._databases
  · simp [h, SessionEntity.emit]
  · simp [h, SessionEntity.emit]

end db
end meow

namespace meow
namespace db

/-! ## Names of the database list after `createDatabase` -/

/-- C12, the code at the failing input.  The connection answers with pairwise
distinct names, `databases(true)` and `allDatabases(true)` return the same
list, and the session uses all databases.  `createDatabase("gamma")` on the
newly constructed, not yet populated session first populates the list from the
server, which already has `gamma`, and then appends a second entity named
`gamma`: the reachable state has the names `alpha`, `beta`, `gamma`, `gamma`.
On the populated session the same call gives `alpha`, `beta`, `gamma`. -/
theorem createDatabase_unpopulated_duplicates_name :
    (Sample.serverWithGamma.databases true).Nodup
      ∧ (Sample.serverWithGamma.allDatabases true).Nodup
      ∧ Sample.serverWithGamma.databases true = Sample.serverWithGamma.allDatabases true
      ∧ Sample.serverWithGamma.isAllDatabases = true
      ∧ (SessionEntity.createDatabase Sample.serverWithGamma "gamma" ""
          Sample.newSession).Reachable
      ∧ (SessionEntity.createDatabase Sample.serverWithGamma "gamma" ""
          Sample.newSession)._databases = [0, 1, 2, 3]
      ∧ (SessionEntity.createDatabase Sample.serverWithGamma "gamma" ""
          Sample.newSession).databaseNames = ["alpha", "beta", "gamma", "gamma"]
      ∧ ¬ (SessionEntity.createDatabase Sample.serverWithGamma "gamma" ""
          Sample.newSession).databaseNames.Nodup
      ∧ (SessionEntity.createDatabase Sample.serverWithGamma "gamma" ""
          Sample.populated).databaseNames = ["alpha", "beta", "gamma"] :=
  ⟨by decide, by decide, by decide, rfl, .createDatabase _ _ _ (.construct _ _ _),
   by decide, by decide, by decide, by decide⟩

/-! ## The move-to-existing branch of `editDatabase` -/

/-- C13, the code at the failing input.  The session of a connection with the
allow-list `alpha` is populated with the single entity `alpha`;
`Connection::allDatabases()` contains `beta` and `Connection::editDatabase`
returns true for renaming `alpha` to `beta`.  `databaseByName("beta")` is null
and `editDatabase` dereferences it.  The same happens on a session whose list
is not populated. -/
theorem editDatabase_dereferences_missing_database :
    "beta" ∈ Sample.restrictedServer.allDatabases false
      ∧ Sample.restrictedServer.editDatabase 0 "beta" "" = true
      ∧ Sample.restricted.Reachable
      ∧ Sample.restricted._databases = [0]
      ∧ Sample.restricted.databaseNames = ["alpha"]
      ∧ Sample.restricted.databaseByName "beta" = none
      ∧ (SessionEntity.editDatabase Sample.restrictedServer 0 "beta" ""
          Sample.restricted).isNone = true
      ∧ Sample.newSession.Reachable
      ∧ Sample.newSession.databaseByName "beta" = none
      ∧ (SessionEntity.editDatabase Sample.server 0 "beta" "" Sample.newSession).isNone
          = true :=
  ⟨by decide, rfl, .refreshAllEntities _ (.construct _ _ _), by decide, by decide,
   by decide, by decide, .construct _ _ _, by decide, by decide⟩

end db
end meow
